import Mathlib

/-!
Shallow embedding of the task-orchestration core of `tubesync`
(`sync/tasks.py`) and proofs about it.

Conventions used throughout:
* timestamps (`django.utils.timezone` datetimes) are modelled as integers
  (seconds); `timedelta(days=d)` is `d * 86400`;
* Python strings are modelled as Lean `String`, with the Python string
  operations (`strip`, `split`, `in`) re-implemented over `List Char` so
  that proofs are plain list inductions;
* database rows (`Source`, `Media`, `CompletedTask`) become Lean structures
  and the database a structure of lists; `queryset.delete()` becomes a
  `List.filter` keeping the non-matching rows;
* functions that can raise return `Except PyErr _`; a Python `return` with
  no state change returns the input state unchanged.
-/

namespace TubeSync

/-- Timestamps (timezone-aware datetimes) as integer seconds. -/
abbrev Time := Int

/-- `timedelta(days=d)` in seconds. -/
def daysDelta (d : Int) : Time := d * 86400

/-! ## Python string primitives over `List Char` -/

/-- Whitespace as recognised by Python `str.strip()` (ASCII fragment). -/
def pyIsSpace (c : Char) : Bool :=
  c = ' ' ∨ c = '\t' ∨ c = '\n' ∨ c = '\r' ∨ c = '\x0b' ∨ c = '\x0c'

/-- Python `str.strip()` on a character list. -/
def pyStripList (cs : List Char) : List Char :=
  ((cs.dropWhile pyIsSpace).reverse.dropWhile pyIsSpace).reverse

/-- Python `str.strip()`. -/
def pyStrip (s : String) : String :=
  ⟨pyStripList s.data⟩

/-- Python `str.split(sep)` for a one-character separator: splits at every
occurrence, yielding `[[]]` on the empty string (so the result is never
`[]`, exactly as in Python). -/
def pySplitChar (sep : Char) : List Char → List (List Char)
  | [] => [[]]
  | c :: cs =>
    let r := pySplitChar sep cs
    if c = sep then [] :: r
    else
      match r with
      | h :: t => (c :: h) :: t
      | [] => [[c]]

/-- The characters after the first occurrence of `sep`, or `none` when
`sep` does not occur.  `splitOnceAfter sep cs = some rest` models both the
Python test `sep in s` (the `some` case) and `s.split(sep, 1)[1]`. -/
def splitOnceAfter (sep : Char) : List Char → Option (List Char)
  | [] => none
  | c :: cs => if c = sep then some cs else splitOnceAfter sep cs

theorem not_mem_filter_bang {α} {l : List α} {p : α → Bool} {a : α} (ha : a ∈ l) :
    a ∉ l.filter (fun x => !p x) ↔ p a = true := by
  rw [List.mem_filter]
  constructor
  · intro h
    by_contra hp
    exact h ⟨ha, by simp [Bool.not_eq_true] at hp ⊢; exact hp⟩
  · intro h hc
    simp [h] at hc

theorem pySplitChar_ne_nil (sep : Char) (cs : List Char) :
    pySplitChar sep cs ≠ [] := by
  induction cs with
  | nil => simp [pySplitChar]
  | cons c cs ih =>
    simp only [pySplitChar]
    split
    · simp
    · cases h : pySplitChar sep cs with
      | nil => simp
      | cons h t => simp

/-! ## Completed tasks and `get_error_message` -/

/-- A `background_task.models.CompletedTask` row, restricted to the fields
the orchestration core reads: when it ran, when (if ever) it failed, and
the captured error trace (`last_error`, empty string when absent). -/
structure CompletedTask where
  run_at : Time
  failed_at : Option Time
  last_error : String
  deriving Repr, DecidableEq

/-- `CompletedTask.has_error()` from the `background_task` library:
`bool(self.last_error)`, i.e. the trace text is non-empty. -/
def CompletedTask.hasError (t : CompletedTask) : Bool :=
  t.last_error ≠ ""

/-- `get_error_message(task)` from `sync/tasks.py`: the last line of the
stripped `last_error` trace with the text up to and including the first
`:` removed and the remainder stripped; `''` when the task has no error,
when the (never empty in Python) split has no last line, or when the last
line contains no `:`. -/
def get_error_message (t : CompletedTask) : String :=
  if ¬ t.hasError then ""
  else
    let stacktrace_lines := pySplitChar '\n' (pyStripList t.last_error.data)
    match stacktrace_lines.getLast? with
    | none => ""
    | some lastLine =>
      let error_message := pyStripList lastLine
      match splitOnceAfter ':' error_message with
      | none => ""
      | some rest => ⟨pyStripList rest⟩

/-! ## `get_hash`: canonical JSON parameter serialization and SHA-1 -/

/-- Lower-case hexadecimal digit. -/
def hexDigit (n : Nat) : Char :=
  if n < 10 then Char.ofNat ('0'.toNat + n) else Char.ofNat ('a'.toNat + (n - 10))

/-- `n` as `count` lower-case hex digits, most significant first. -/
def hexDigits (count n : Nat) : List Char :=
  (List.range count).map fun i => hexDigit ((n >>> (4 * (count - 1 - i))) % 16)

/-- One character escaped as Python `json.dumps` (default `ensure_ascii=True`)
renders it inside a JSON string literal. -/
def jsonEscapeChar (c : Char) : List Char :=
  if c = '"' then ['\\', '"']
  else if c = '\\' then ['\\', '\\']
  else if c = '\n' then ['\\', 'n']
  else if c = '\t' then ['\\', 't']
  else if c = '\r' then ['\\', 'r']
  else if c = '\x08' then ['\\', 'b']
  else if c = '\x0c' then ['\\', 'f']
  else if c.toNat < 0x20 then '\\' :: 'u' :: hexDigits 4 c.toNat
  else if c.toNat < 0x7f then [c]
  else if c.toNat ≤ 0xffff then '\\' :: 'u' :: hexDigits 4 c.toNat
  else
    let n := c.toNat - 0x10000
    ('\\' :: 'u' :: hexDigits 4 (0xd800 + n / 0x400)) ++
      ('\\' :: 'u' :: hexDigits 4 (0xdc00 + n % 0x400))

/-- `json.dumps(((str(pk),), {}), sort_keys=True)`: the canonical (sort-keyed)
serialization of the one-positional-argument call `((str(pk),), {})`,
which renders as `[["<pk>"], {}]`. -/
def taskParams (pk : String) : String :=
  let inner := (pk.data.map jsonEscapeChar).flatten
  ⟨('[' :: '[' :: '"' :: inner) ++ ('"' :: ']' :: ',' :: ' ' :: '{' :: '}' :: [']'])⟩

/-- UTF-8 encoding of one character as bytes. -/
def utf8EncodeChar (c : Char) : List Nat :=
  let n := c.toNat
  if n < 0x80 then [n]
  else if n < 0x800 then [0xc0 + n / 0x40, 0x80 + n % 0x40]
  else if n < 0x10000 then
    [0xe0 + n / 0x1000, 0x80 + (n / 0x40) % 0x40, 0x80 + n % 0x40]
  else
    [0xf0 + n / 0x40000, 0x80 + (n / 0x1000) % 0x40,
     0x80 + (n / 0x40) % 0x40, 0x80 + n % 0x40]

/-- `s.encode('utf-8')` as a byte list. -/
def utf8Bytes (s : String) : List Nat :=
  (s.data.map utf8EncodeChar).flatten

/-- 32-bit left rotation on a `Nat` below `2 ^ 32`. -/
def rotl32 (n x : Nat) : Nat :=
  ((x <<< n) ||| (x >>> (32 - n))) % 2 ^ 32

/-- `n` as `count` bytes, big-endian. -/
def beBytes (count n : Nat) : List Nat :=
  (List.range count).map fun i => (n >>> (8 * (count - 1 - i))) % 256

/-- SHA-1 message padding: `0x80`, zeros to 56 mod 64, the bit length as
eight big-endian bytes. -/
def sha1Pad (msg : List Nat) : List Nat :=
  let len := msg.length
  let k := (119 - len % 64) % 64
  msg ++ 0x80 :: List.replicate k 0 ++ beBytes 8 (8 * len)

/-- Split a byte list into 64-byte chunks. -/
def chunks64 : List Nat → List (List Nat)
  | [] => []
  | l@(_ :: _) => l.take 64 :: chunks64 (l.drop 64)
  termination_by l => l.length
  decreasing_by simp_all [List.length_drop]; omega

/-- Four bytes at a time into big-endian 32-bit words. -/
def bytesToWords : List Nat → List Nat
  | a :: b :: c :: d :: rest => (a * 2 ^ 24 + b * 2 ^ 16 + c * 2 ^ 8 + d) :: bytesToWords rest
  | _ => []

/-- Extend sixteen schedule words to eighty. -/
def sha1Schedule (w16 : List Nat) : List Nat :=
  (List.range 64).foldl
    (fun w _ =>
      let i := w.length
      w ++ [rotl32 1 (w.getD (i - 3) 0 ^^^ w.getD (i - 8) 0 ^^^
                      w.getD (i - 14) 0 ^^^ w.getD (i - 16) 0)])
    w16

/-- One SHA-1 round on the `(a, b, c, d, e)` state. -/
def sha1Round (w : List Nat) (st : Nat × Nat × Nat × Nat × Nat) (i : Nat) :
    Nat × Nat × Nat × Nat × Nat :=
  let (a, b, c, d, e) := st
  let fk : Nat × Nat :=
    if i < 20 then ((b &&& c) ||| ((b ^^^ 0xffffffff) &&& d), 0x5a827999)
    else if i < 40 then (b ^^^ c ^^^ d, 0x6ed9eba1)
    else if i < 60 then ((b &&& c) ||| (b &&& d) ||| (c &&& d), 0x8f1bbcdc)
    else (b ^^^ c ^^^ d, 0xca62c1d6)
  let temp := (rotl32 5 a + fk.1 + e + fk.2 + w.getD i 0) % 2 ^ 32
  (temp, a, rotl32 30 b, c, d)

/-- Process one 64-byte chunk into the running hash state. -/
def sha1Chunk (hs : Nat × Nat × Nat × Nat × Nat) (chunk : List Nat) :
    Nat × Nat × Nat × Nat × Nat :=
  let w := sha1Schedule (bytesToWords chunk)
  let (h0, h1, h2, h3, h4) := hs
  let (a, b, c, d, e) := (List.range 80).foldl (sha1Round w) (h0, h1, h2, h3, h4)
  ((h0 + a) % 2 ^ 32, (h1 + b) % 2 ^ 32, (h2 + c) % 2 ^ 32,
   (h3 + d) % 2 ^ 32, (h4 + e) % 2 ^ 32)

/-- `hashlib.sha1(data).hexdigest()` over a byte list. -/
def sha1Hex (msg : List Nat) : String :=
  let (h0, h1, h2, h3, h4) :=
    (chunks64 (sha1Pad msg)).foldl sha1Chunk
      (0x67452301, 0xefcdab89, 0x98badcfe, 0x10325476, 0xc3d2e1f0)
  ⟨hexDigits 8 h0 ++ hexDigits 8 h1 ++ hexDigits 8 h2 ++ hexDigits 8 h3 ++ hexDigits 8 h4⟩

/-- `get_hash(task_name, pk)` from `sync/tasks.py`:
`sha1(f'{task_name}{task_params}'.encode('utf-8')).hexdigest()` where
`task_params = json.dumps(((str(pk),), {}), sort_keys=True)`. -/
def get_hash (task_name : String) (pk : String) : String :=
  sha1Hex (utf8Bytes (task_name ++ taskParams pk))

/-! ## Catalog data model -/

/-- Python exceptions that the embedded functions can raise. -/
inductive PyErr where
  | noMediaException
  | downloadFailedException
  | typeError
  | keyError
  | valueError
  | indexError
  deriving Repr, DecidableEq

/-- Python string truthiness: non-empty. -/
def truthyStr (s : String) : Bool := s ≠ ""

/-- A `sync.models.Source` row, restricted to the fields `sync/tasks.py`
reads or writes.  `download_media` is the per-source "download files at
all" flag; `download_cap_date` the optional cap timestamp. -/
structure Source where
  pk : String
  key_field : String
  type_directory_path : String
  has_failed : Bool
  last_crawl : Option Time
  delete_old_media : Bool
  days_to_keep : Int
  download_media : Bool
  download_cap_date : Option Time
  delete_removed_media : Bool
  copy_thumbnails : Bool
  write_nfo : Bool
  deriving Repr, DecidableEq

/-- Modelled from the spec: a format descriptor from the media's metadata
catalog (`{format_id, vcodec, acodec, width, height, fps, is_hdr}` plus the
display `format` note read by `download_media`); `sync/models.py` is not
part of the given sources.  Absent codecs are the empty string (falsy). -/
structure Format where
  format_id : String
  format : String
  vcodec : String
  acodec : String
  height : Option Int
  width : Option Int
  fps : Option Int
  is_hdr : Bool
  deriving Repr, DecidableEq

/-- A `sync.models.Media` row, restricted to the fields `sync/tasks.py`
reads or writes.  `media_file` is the stored file-field name (empty string
when unset, which is falsy in Python); `formats` is the metadata-derived
format catalog backing `get_format_by_code`; `filename` the derived
target file name (a derived path, per the spec's data model). -/
structure Media where
  pk : String
  source : String
  key : String
  filename : String
  skip : Bool
  manual_skip : Bool
  can_download : Bool
  downloaded : Bool
  media_file : String
  published : Option Time
  download_date : Option Time
  metadata : String
  formats : List Format
  downloaded_format : String
  downloaded_height : Option Int
  downloaded_width : Option Int
  downloaded_audio_codec : String
  downloaded_video_codec : String
  downloaded_container : String
  downloaded_fps : Option Int
  downloaded_hdr : Bool
  downloaded_filesize : Option Int
  deriving Repr, DecidableEq

/-- Modelled from the spec: `media.get_format_by_code(code)` (defined in
`sync/models.py`, not among the given sources) looks the code up in the
media's format catalog; the `none` case stands for the Python `False`
return whose subsequent subscripting raises `TypeError`. -/
def get_format_by_code (m : Media) (code : String) : Option Format :=
  m.formats.find? (·.format_id == code)

/-- One enumerated remote item: a dict with a guaranteed `id` key (the
enumeration contract of the spec: `list[{id: string, ...}]`) and other
string-valued keys. -/
structure Video where
  id : String
  extra : List (String × String)
  deriving Repr, DecidableEq

/-- Python `video.get(k, None)`. -/
def Video.vget (v : Video) (k : String) : Option String :=
  if k = "id" then some v.id else v.extra.lookup k

/-- The persistent catalog: sources, media and the completed-task log. -/
structure Db where
  sources : List Source
  media : List Media
  completedTasks : List CompletedTask
  deriving Repr, DecidableEq

/-- `source.save()`: replace the row with this primary key. -/
def saveSource (db : Db) (s : Source) : Db :=
  { db with sources := db.sources.map fun t => if t.pk == s.pk then s else t }

/-- `media.save()`: update the row with this primary key, or insert it. -/
def saveMedia (db : Db) (m : Media) : Db :=
  if db.media.any (·.pk == m.pk) then
    { db with media := db.media.map fun t => if t.pk == m.pk then m else t }
  else
    { db with media := db.media ++ [m] }

/-! ## Maintenance sweeps -/

/-- `cleanup_completed_tasks()`: delete completed tasks whose `run_at` is
before `now` minus `COMPLETED_TASKS_DAYS_TO_KEEP` (default 30) days. -/
def cleanup_completed_tasks (now : Time) (db : Db) : Db :=
  let delta := now - daysDelta 30
  { db with completedTasks := db.completedTasks.filter fun t => !decide (t.run_at < delta) }

/-- The deletion test of `cleanup_old_media()`: the media row lies in the
inner queryset of the nested loops — some source passes
`filter(delete_old_media=True, days_to_keep__gt=0)`, the media belongs to
it, is downloaded, and its `download_date` is before `now` minus
`days_to_keep` days (a SQL `__lt`, false on a null date). -/
def mediaExpired (sources : List Source) (now : Time) (m : Media) : Bool :=
  sources.any fun s =>
    s.delete_old_media && s.days_to_keep > 0 && m.source == s.pk && m.downloaded &&
      match m.download_date with
      | some d => d < now - daysDelta s.days_to_keep
      | none => false

/-- `cleanup_old_media()` from `sync/tasks.py`. -/
def cleanup_old_media (now : Time) (db : Db) : Db :=
  { db with media := db.media.filter fun m => !mediaExpired db.sources now m }

/-- `cleanup_removed_media(source, videos)` from `sync/tasks.py`: among the
source's downloaded media, delete those whose key matches no enumerated
video id. -/
def cleanup_removed_media (s : Source) (videos : List Video) (db : Db) : Db :=
  { db with media := db.media.filter fun m =>
      !(m.source == s.pk && m.downloaded &&
          ((videos.map (·.id)).filter (· == m.key)).isEmpty) }

/-! ## Index Source stage -/

/-- Modelled from the spec: a fresh `Media(key=key)` row (`sync/models.py`
defaults are not among the given sources; per the spec's lifecycle a newly
discovered item starts unindexed: no skip flags, not downloadable, not
downloaded, no metadata).  The surrogate primary key, a random UUID in the
code, is stood in for by the deterministic pair `source.pk ++ "/" ++ key`. -/
def newMedia (s : Source) (key : String) : Media where
  pk := s.pk ++ "/" ++ key
  source := s.pk
  key := key
  filename := key
  skip := false
  manual_skip := false
  can_download := false
  downloaded := false
  media_file := ""
  published := none
  download_date := none
  metadata := ""
  formats := []
  downloaded_format := ""
  downloaded_height := none
  downloaded_width := none
  downloaded_audio_codec := ""
  downloaded_video_codec := ""
  downloaded_container := ""
  downloaded_fps := none
  downloaded_hdr := false
  downloaded_filesize := none

/-- The body of the per-video loop of `index_source_task`: skip the video
when it has no (or a falsy) key, else create-or-update the `(key, source)`
media row. -/
def indexVideo (s : Source) (db : Db) (video : Video) : Db :=
  match video.vget s.key_field with
  | none => db
  | some key =>
    if key = "" then db
    else
      match db.media.find? fun m => m.key == key && m.source == s.pk with
      | some m => saveMedia db { m with source := s.pk }
      | none => saveMedia db (newMedia s key)

/-- `index_source_task(source_id)` from `sync/tasks.py`.  The external
`source.index_media()` result is the `videos` argument (`none` models a
falsy/no result, as does `some []`).  The return value is the persisted
catalog state paired with the exception raised, if any: the function
clears `has_failed` and saves, then raises `NoMediaException` on an empty
enumeration, else stamps `last_crawl`, create-or-updates a row per video,
and runs the maintenance sweeps (plus the removed-media cleanup when the
source opts in). -/
def index_source_task (db : Db) (source_id : String) (videos : Option (List Video))
    (now : Time) : Db × Option PyErr :=
  match db.sources.find? (·.pk == source_id) with
  | none => (db, none)
  | some source =>
    let source := { source with has_failed := false }
    let db := saveSource db source
    match videos with
    | none => (db, some .noMediaException)
    | some vs =>
      if vs.isEmpty then (db, some .noMediaException)
      else
        let source := { source with last_crawl := some now }
        let db := saveSource db source
        let db := vs.foldl (indexVideo source) db
        let db := cleanup_completed_tasks now db
        let db := cleanup_old_media now db
        let db := if source.delete_removed_media then cleanup_removed_media source vs db else db
        (db, none)

/-! ## Fetch Metadata stage -/

/-- The external inputs of one `download_media_metadata` run: the fetched
metadata document (already serialized), the upload date parsed from it
(`media.upload_date`), whether `media.get_format_str()` is truthy (a
matching format exists), and the current time. -/
structure MetaEnv where
  metadata : String
  upload_date : Option Time
  format_available : Bool
  now : Time
  deriving Repr, DecidableEq

/-- `download_media_metadata(media_id)` from `sync/tasks.py`, as the new
state of the media row (which the function saves at the end): a manual
skip returns unchanged; otherwise store the metadata, derive `published`
from the upload date (absent upload date sets `skip`), apply the cap-date
check (`published < download_cap_date` sets `skip`), apply the retention
check (no published date, or `published` older than `days_to_keep` days,
sets `skip`), and compute `can_download` when not skipped. -/
def download_media_metadata (m : Media) (s : Source) (env : MetaEnv) : Media :=
  if m.manual_skip then m
  else
    let m := { m with metadata := env.metadata }
    let m :=
      match env.upload_date with
      | some d => { m with published := some d }
      | none => { m with skip := true }
    let m :=
      match m.published, s.download_cap_date with
      | some p, some cap => if p < cap then { m with skip := true } else m
      | _, _ => m
    let m :=
      if s.delete_old_media ∧ s.days_to_keep > 0 then
        match m.published with
        | none => { m with skip := true }
        | some p =>
          if p < env.now - daysDelta s.days_to_keep then { m with skip := true } else m
      else m
    if ¬ m.skip then { m with can_download := env.format_available } else m

/-! ## Download Media stage -/

/-- The external inputs of one `download_media` run: what the downloader
returned (`format_str`, `container`), whether the expected output file
exists afterwards, its size, and the current time. -/
structure DlEnv where
  format_str : String
  container : String
  fileExists : Bool
  filesize : Int
  now : Time
  deriving Repr, DecidableEq

/-- `download_media(media_id)` from `sync/tasks.py`, as the resulting
media row or the exception raised.  Precondition failures (skip flag;
downloaded with a recorded file; source download flag off; published on
or before the cap date) return the row unchanged.  Otherwise, when the
expected file exists, the download bookkeeping fields are set and the
returned format string is parsed: a `+` splits video and audio format
codes (non-2-way splits raise `ValueError`, a failed code lookup raises
`TypeError` via subscripting `False`); a single code fills video fields
only when its `vcodec` is truthy, else marks the format `audio`.  A
missing output file raises `DownloadFailedException`. -/
def download_media (m : Media) (s : Source) (env : DlEnv) : Except PyErr Media :=
  if m.skip then .ok m
  else if m.downloaded && truthyStr m.media_file then .ok m
  else if ¬ s.download_media then .ok m
  else if (match s.download_cap_date, m.published with
           | some cap, some p => decide (p ≤ cap)
           | _, _ => false) then .ok m
  else
    let format_str := env.format_str
    let container := env.container
    if env.fileExists then
      let m := { m with
        media_file := s.type_directory_path ++ "/" ++ m.filename
        downloaded := true
        download_date := some env.now
        downloaded_filesize := some env.filesize
        downloaded_container := container }
      if format_str.data.contains '+' then
        match pySplitChar '+' format_str.data with
        | [vcs, acs] =>
          match get_format_by_code m ⟨acs⟩, get_format_by_code m ⟨vcs⟩ with
          | some aformat, some vformat =>
            .ok { m with
              downloaded_format := vformat.format
              downloaded_height := vformat.height
              downloaded_width := vformat.width
              downloaded_audio_codec := aformat.acodec
              downloaded_video_codec := vformat.vcodec
              downloaded_container := container
              downloaded_fps := vformat.fps
              downloaded_hdr := vformat.is_hdr }
          | _, _ => .error .typeError
        | _ => .error .valueError
      else
        match get_format_by_code m format_str with
        | none => .error .typeError
        | some cformat =>
          let m := { m with downloaded_audio_codec := cformat.acodec }
          if truthyStr cformat.vcodec then
            .ok { m with
              downloaded_format := cformat.format
              downloaded_height := cformat.height
              downloaded_width := cformat.width
              downloaded_video_codec := cformat.vcodec
              downloaded_fps := cformat.fps
              downloaded_hdr := cformat.is_hdr }
          else
            .ok { m with downloaded_format := "audio" }
    else
      .error .downloadFailedException

/-! ## `map_task_to_instance` -/

/-- A parsed JSON value (the result of `json.loads`). -/
inductive Json where
  | null
  | bool (b : Bool)
  | num (n : Int)
  | str (s : String)
  | arr (xs : List Json)
  | obj (kvs : List (String × Json))
  deriving Repr

/-- Python `len(v)` on a parsed JSON value: defined on sequences and
mappings, a `TypeError` on `None`, booleans and numbers. -/
def pyLen : Json → Except PyErr Nat
  | .arr xs => .ok xs.length
  | .str s => .ok s.length
  | .obj kvs => .ok kvs.length
  | _ => .error .typeError

/-- Python two-target unpacking `a, b = v`: the two elements of a list,
the two characters of a string, the two keys of a dict; `ValueError` on
other sizes, `TypeError` on non-iterables.  (In `map_task_to_instance`
this runs only after `len(v) == 2` succeeded, so the error cases are
unreachable there.) -/
def pyUnpack2 : Json → Except PyErr (Json × Json)
  | .arr [a, b] => .ok (a, b)
  | .str ⟨[c1, c2]⟩ => .ok (.str ⟨[c1]⟩, .str ⟨[c2]⟩)
  | .obj [(k1, _), (k2, _)] => .ok (.str k1, .str k2)
  | .arr _ => .error .valueError
  | .str _ => .error .valueError
  | .obj _ => .error .valueError
  | _ => .error .typeError

/-- Python `v[0]`: first list element (`IndexError` when empty), first
character of a string, a `KeyError` on a dict (its keys are strings, never
the integer `0`), a `TypeError` otherwise. -/
def pyIndex0 : Json → Except PyErr Json
  | .arr (x :: _) => .ok x
  | .arr [] => .error .indexError
  | .str s =>
    match s.data with
    | c :: _ => .ok (.str ⟨[c]⟩)
    | [] => .error .indexError
  | .obj _ => .error .keyError
  | _ => .error .typeError

/-- A brace character as stripped by `uuid.UUID`'s `hex.strip('{}')`. -/
def isBrace (c : Char) : Bool := c = '{' ∨ c = '}'

/-- A hexadecimal digit. -/
def isHexChar (c : Char) : Bool :=
  ('0' ≤ c ∧ c ≤ '9') ∨ ('a' ≤ c ∧ c ≤ 'f') ∨ ('A' ≤ c ∧ c ≤ 'F')

/-- `hex.replace('urn:', '')`: remove every occurrence, left to right. -/
def removeUrn : List Char → List Char
  | 'u' :: 'r' :: 'n' :: ':' :: rest => removeUrn rest
  | c :: rest => c :: removeUrn rest
  | [] => []

/-- `hex.replace('uuid:', '')`: remove every occurrence, left to right. -/
def removeUuid : List Char → List Char
  | 'u' :: 'u' :: 'i' :: 'd' :: ':' :: rest => removeUuid rest
  | c :: rest => c :: removeUuid rest
  | [] => []

/-- `uuid.UUID(s)`'s canonicalization: drop `urn:` / `uuid:` markers,
strip surrounding braces, drop hyphens, require 32 hex digits (the
canonical grammar of the constructor), and normalize to lower case.
`none` models the `ValueError` the constructor raises otherwise. -/
def uuidCanon (s : String) : Option String :=
  let cs0 := removeUuid (removeUrn s.data)
  let cs := (((cs0.dropWhile isBrace).reverse.dropWhile isBrace).reverse).filter (· ≠ '-')
  if cs.length = 32 ∧ cs.all isHexChar then some ⟨cs.map Char.toLower⟩ else none

/-- `uuid.UUID(x)` on the first argument: only defined on strings
(`TypeError` on anything else); both `TypeError` and `ValueError` are
caught by the caller, hence `Option`. -/
def uuidArg : Json → Option String
  | .str s => uuidCanon s
  | _ => none

/-- Which catalog model a task kind concerns (`TASK_MAP`). -/
inductive ModelKind where
  | sourceModel
  | mediaModel
  deriving Repr, DecidableEq

/-- `TASK_MAP` from `map_task_to_instance`. -/
def taskMap (name : String) : Option ModelKind :=
  if name = "sync.tasks.index_source_task" then some .sourceModel
  else if name = "sync.tasks.check_source_directory_exists" then some .sourceModel
  else if name = "sync.tasks.download_media_thumbnail" then some .mediaModel
  else if name = "sync.tasks.download_media" then some .mediaModel
  else none

/-- `MODEL_URL_MAP` from `map_task_to_instance` (total on both models, so
the code's `if not url` guard is dead). -/
def modelUrl : ModelKind → String
  | .sourceModel => "sync:source"
  | .mediaModel => "sync:media-item"

/-- A catalog entity returned by `map_task_to_instance`. -/
inductive Instance where
  | source (s : Source)
  | media (m : Media)
  deriving Repr, DecidableEq

/-- A stored `background_task` row as `map_task_to_instance` reads it:
the task kind and the parameter string after `json.loads` (`none` models
the `TypeError`/`ValueError`/`AttributeError` cases the code catches:
a non-string or invalid-JSON `task_params`). -/
structure PyTask where
  task_name : String
  task_params : Option Json
  deriving Repr

/-- `map_task_to_instance(task)` from `sync/tasks.py`.  `Except` carries
uncaught exceptions; `.ok none` is the Python `(None, None)` return and
`.ok (some (inst, url))` the success return.  Entity primary keys are
stored in the canonical 32-hex-lower-case form `uuidCanon` produces, so
`objects.get(pk=instance_uuid)` is a lookup by that string. -/
def map_task_to_instance (db : Db) (t : PyTask) : Except PyErr (Option (Instance × String)) :=
  match taskMap t.task_name with
  | none => .ok none
  | some model =>
    let url := modelUrl model
    match t.task_params with
    | none => .ok none
    | some task_args =>
      match pyLen task_args with
      | .error e => .error e
      | .ok n =>
        if n ≠ 2 then .ok none
        else
          match pyUnpack2 task_args with
          | .error e => .error e
          | .ok (args, _kwargs) =>
            match pyLen args with
            | .error e => .error e
            | .ok nargs =>
              if nargs = 0 then .ok none
              else
                match pyIndex0 args with
                | .error e => .error e
                | .ok a0 =>
                  match uuidArg a0 with
                  | none => .ok none
                  | some u =>
                    match model with
                    | .sourceModel =>
                      match db.sources.find? (·.pk == u) with
                      | some s => .ok (some (.source s, url))
                      | none => .ok none
                    | .mediaModel =>
                      match db.media.find? (·.pk == u) with
                      | some m => .ok (some (.media m, url))
                      | none => .ok none

/-! ## Helper lemmas on the string primitives -/

theorem pyStripList_nil : pyStripList [] = [] := rfl

theorem pyStripList_cons_space (l : List Char) : pyStripList (' ' :: l) = pyStripList l := by
  simp [pyStripList, List.dropWhile]
  rfl

theorem pySplitChar_of_not_mem (sep : Char) {cs : List Char} (h : sep ∉ cs) :
    pySplitChar sep cs = [cs] := by
  induction cs with
  | nil => rfl
  | cons c cs ih =>
    simp only [List.mem_cons, not_or] at h
    have hcs : ¬ c = sep := fun hh => h.1 hh.symm
    simp [pySplitChar, ih h.2, hcs]

theorem pySplitChar_append (sep : Char) (l1 l2 : List Char) :
    ∃ pre : List (List Char), pre ≠ [] ∧
      pySplitChar sep (l1 ++ sep :: l2) = pre ++ pySplitChar sep l2 := by
  induction l1 with
  | nil => exact ⟨[[]], by simp, by simp [pySplitChar]⟩
  | cons c l1 ih =>
    obtain ⟨pre, hne, heq⟩ := ih
    by_cases hc : c = sep
    · exact ⟨[] :: pre, by simp, by simp [pySplitChar, hc, heq]⟩
    · cases pre with
      | nil => exact absurd rfl hne
      | cons p0 pre' =>
        refine ⟨(c :: p0) :: pre', by simp, ?_⟩
        simp only [List.cons_append, pySplitChar, if_neg hc, List.append_eq, heq]

theorem splitOnceAfter_append (sep : Char) {l1 : List Char} (h : sep ∉ l1) (l2 : List Char) :
    splitOnceAfter sep (l1 ++ sep :: l2) = some l2 := by
  induction l1 with
  | nil => simp [splitOnceAfter]
  | cons c l1 ih =>
    simp only [List.mem_cons, not_or] at h
    have hcs : ¬ c = sep := fun hh => h.1 hh.symm
    simp [splitOnceAfter, hcs, ih h.2]

/-! ## Claims -/

/-- C6: `get_error_message` returns `""` on a task that did not fail (no
captured error), on an empty trace, and on a trace whose last line has no
`:`; on a failed task whose stripped trace ends with the line
`<etype>: <msg>` (no `:` in the exception type, the line and message
carrying no surrounding whitespace) it returns `<msg>`, the message with
the leading exception-type prefix stripped. -/
theorem get_error_message_spec :
    (∀ t : CompletedTask, t.hasError = false → get_error_message t = "") ∧
    (∀ t : CompletedTask, t.last_error = "" → get_error_message t = "") ∧
    (∀ (t : CompletedTask) (lastLine : List Char),
      (pySplitChar '\n' (pyStripList t.last_error.data)).getLast? = some lastLine →
      splitOnceAfter ':' (pyStripList lastLine) = none →
      get_error_message t = "") ∧
    (∀ (t : CompletedTask) (p : List Char) (etype msg : String),
      pyStripList t.last_error.data = p ++ '\n' :: (etype ++ ": " ++ msg).data →
      '\n' ∉ (etype ++ ": " ++ msg).data →
      ':' ∉ etype.data →
      pyStripList (etype ++ ": " ++ msg).data = (etype ++ ": " ++ msg).data →
      pyStripList msg.data = msg.data →
      get_error_message t = msg) := by
  refine ⟨?_, ?_, ?_, ?_⟩
  · intro t h
    simp [get_error_message, h]
  · intro t h
    simp [get_error_message, CompletedTask.hasError, h]
  · intro t lastLine hlast hsplit
    simp only [get_error_message]
    split
    · rfl
    · rw [hlast]
      simp [hsplit]
  · intro t p etype msg hstrip hnl hcolon hclean hmsg
    have hne : t.last_error ≠ "" := by
      intro h
      have h0 : ("" : String).data = [] := rfl
      rw [h, h0, pyStripList_nil] at hstrip
      simp at hstrip
    have herr : t.hasError = true := by simp [CompletedTask.hasError, hne]
    simp only [get_error_message, if_neg (not_not_intro herr)]
    rw [hstrip]
    obtain ⟨pre, hpre, hsp⟩ := pySplitChar_append '\n' p (etype ++ ": " ++ msg).data
    rw [hsp, pySplitChar_of_not_mem '\n' hnl,
      List.getLast?_append_of_ne_nil pre (by simp)]
    have h1 : ([(etype ++ ": " ++ msg).data]).getLast? = some (etype ++ ": " ++ msg).data := rfl
    rw [h1]
    have hdata : (etype ++ ": " ++ msg).data = etype.data ++ ':' :: (' ' :: msg.data) := by
      have h2 : (etype ++ ": " ++ msg).data = (etype.data ++ [':', ' ']) ++ msg.data := rfl
      rw [h2, List.append_assoc]
      rfl
    show (match splitOnceAfter ':' (pyStripList (etype ++ ": " ++ msg).data) with
          | none => ""
          | some rest => (⟨pyStripList rest⟩ : String)) = msg
    rw [hclean, hdata, splitOnceAfter_append ':' hcolon]
    show (⟨pyStripList (' ' :: msg.data)⟩ : String) = msg
    rw [pyStripList_cons_space, hmsg]

/-- C6 witness: the spec's own example trace yields `"disk full"`; an
empty trace and an unfailed task yield `""`. -/
theorem get_error_message_spec_witness :
    get_error_message ⟨0, some 1,
      "Traceback (most recent call last):\nDownloadFailedException: disk full"⟩ = "disk full" ∧
    get_error_message ⟨0, none, ""⟩ = "" := by
  constructor
  · exact get_error_message_spec.2.2.2 _
      "Traceback (most recent call last):".data "DownloadFailedException" "disk full"
      (by decide) (by decide) (by decide) (by decide) (by decide)
  · exact get_error_message_spec.2.1 _ rfl

/-- C8: `get_hash` is a pure, deterministic function of the task kind and
the canonical (sort-keyed JSON) serialization of the argument tuple: equal
kinds and equal serialized parameters give equal identifiers. -/
theorem get_hash_deterministic (n₁ n₂ pk₁ pk₂ : String)
    (hn : n₁ = n₂) (hp : taskParams pk₁ = taskParams pk₂) :
    get_hash n₁ pk₁ = get_hash n₂ pk₂ := by
  simp [get_hash, hn, hp]

/-- C8 witness: at the concrete kind `sync.tasks.download_media` and a
concrete primary key. -/
theorem get_hash_deterministic_witness :
    get_hash "sync.tasks.download_media" "abc" = get_hash "sync.tasks.download_media" "abc" :=
  get_hash_deterministic _ _ _ _ rfl rfl

/-- C7: the retention sweep deletes exactly the media rows belonging to a
source with `delete_old_media` and positive `days_to_keep` that are
downloaded with a download date before `now` minus the retention window. -/
theorem cleanup_old_media_spec (db : Db) (now : Time) (m : Media) (hm : m ∈ db.media) :
    m ∉ (cleanup_old_media now db).media ↔
      ∃ s ∈ db.sources, s.delete_old_media = true ∧ s.days_to_keep > 0 ∧
        m.source = s.pk ∧ m.downloaded = true ∧
        ∃ d, m.download_date = some d ∧ d < now - daysDelta s.days_to_keep := by
  have hmem : m ∉ (cleanup_old_media now db).media ↔ mediaExpired db.sources now m = true :=
    not_mem_filter_bang hm
  rw [hmem, mediaExpired, List.any_eq_true]
  constructor
  · rintro ⟨s, hs, hpred⟩
    refine ⟨s, hs, ?_⟩
    simp only [Bool.and_eq_true, decide_eq_true_eq, beq_iff_eq] at hpred
    obtain ⟨⟨⟨⟨h1, h2⟩, h3⟩, h4⟩, h5⟩ := hpred
    cases hd : m.download_date with
    | none => rw [hd] at h5; simp at h5
    | some d =>
      rw [hd] at h5
      exact ⟨h1, h2, h3, h4, d, rfl, by simpa using h5⟩
  · rintro ⟨s, hs, h1, h2, h3, h4, d, hd, h5⟩
    refine ⟨s, hs, ?_⟩
    simp [h1, h2, h3, h4, hd, h5]

/-- A source with retention enabled and a seven-day window. -/
def srcKeep7 : Source where
  pk := "s7"
  key_field := "id"
  type_directory_path := "video"
  has_failed := false
  last_crawl := none
  delete_old_media := true
  days_to_keep := 7
  download_media := true
  download_cap_date := none
  delete_removed_media := false
  copy_thumbnails := false
  write_nfo := false

/-- A source without expiry. -/
def srcNoExpiry : Source := { srcKeep7 with pk := "sx", delete_old_media := false }

/-- Downloaded ten days before day 1000. -/
def media10 : Media :=
  { newMedia srcKeep7 "old" with downloaded := true, download_date := some (daysDelta 990) }

/-- Downloaded three days before day 1000. -/
def media3 : Media :=
  { newMedia srcKeep7 "new" with downloaded := true, download_date := some (daysDelta 997) }

/-- Old download of the no-expiry source. -/
def mediaX : Media :=
  { newMedia srcNoExpiry "x" with downloaded := true, download_date := some (daysDelta 900) }

/-- Catalog for the retention-sweep scenario. -/
def db7 : Db := ⟨[srcKeep7, srcNoExpiry], [media10, media3, mediaX], []⟩

/-- C7 witness: with `days_to_keep = 7` at day 1000, the ten-day-old
download is purged, the three-day-old one is retained, and the no-expiry
source's media is untouched. -/
theorem cleanup_old_media_spec_witness :
    media10 ∉ (cleanup_old_media (daysDelta 1000) db7).media ∧
    media3 ∈ (cleanup_old_media (daysDelta 1000) db7).media ∧
    mediaX ∈ (cleanup_old_media (daysDelta 1000) db7).media :=
  ⟨(cleanup_old_media_spec db7 (daysDelta 1000) media10 (by decide)).mpr
      ⟨srcKeep7, by decide, by decide, by decide, by decide, by decide,
        daysDelta 990, by decide, by decide⟩,
    by decide, by decide⟩

/-- C9 (amended): the removed-media cleanup deletes exactly the source's
downloaded media rows whose key is absent from the enumeration result. -/
theorem cleanup_removed_media_spec (s : Source) (videos : List Video) (db : Db) (m : Media)
    (hm : m ∈ db.media) :
    m ∉ (cleanup_removed_media s videos db).media ↔
      m.source = s.pk ∧ m.downloaded = true ∧ ∀ v ∈ videos, v.id ≠ m.key := by
  have hmem : m ∉ (cleanup_removed_media s videos db).media ↔
      (m.source == s.pk && m.downloaded &&
        ((videos.map (·.id)).filter (· == m.key)).isEmpty) = true :=
    not_mem_filter_bang hm
  rw [hmem]
  simp only [Bool.and_eq_true, beq_iff_eq, List.isEmpty_iff, List.filter_eq_nil_iff,
    List.mem_map, and_assoc]
  constructor
  · rintro ⟨h1, h2, h3⟩
    refine ⟨h1, h2, fun v hv hveq => ?_⟩
    exact absurd (by simp [hveq]) (h3 v.id ⟨v, hv, rfl⟩)
  · rintro ⟨h1, h2, h3⟩
    refine ⟨h1, h2, fun a ha => ?_⟩
    obtain ⟨v, hv, rfl⟩ := ha
    simpa using h3 v hv

/-- A source with `delete_removed_media` enabled. -/
def srcRm : Source :=
  { srcKeep7 with
    pk := "sr"
    delete_old_media := false
    delete_removed_media := true }

/-- The single still-present enumerated item. -/
def vidPresent : Video := ⟨"present", []⟩

/-- A downloaded row whose key is no longer enumerated. -/
def mAbsDl : Media := { newMedia srcRm "gone" with downloaded := true }

/-- A merely indexed (never downloaded) row whose key `abc` is no longer
enumerated. -/
def mAbsIdx : Media := newMedia srcRm "abc"

/-- A downloaded row whose key is still enumerated. -/
def mPres : Media := { newMedia srcRm "present" with downloaded := true }

/-- Catalog for the removed-media scenario. -/
def dbRm : Db := ⟨[srcRm], [mAbsDl, mAbsIdx, mPres], []⟩

/-- C9 counterexample: a previously indexed (but not downloaded) row of
the source whose key `abc` is absent from the enumeration survives the
cleanup, contradicting "deletes every previously indexed Media row whose
key is absent". -/
theorem cleanup_removed_media_counterexample :
    mAbsIdx.source = srcRm.pk ∧ mAbsIdx.key = "abc" ∧
    mAbsIdx.key ∉ [vidPresent].map (·.id) ∧
    mAbsIdx ∈ (cleanup_removed_media srcRm [vidPresent] dbRm).media := by decide

/-- C9 witness: the downloaded absent-key row is deleted; the downloaded
present-key row is kept. -/
theorem cleanup_removed_media_spec_witness :
    mAbsDl ∉ (cleanup_removed_media srcRm [vidPresent] dbRm).media ∧
    mPres ∈ (cleanup_removed_media srcRm [vidPresent] dbRm).media :=
  ⟨(cleanup_removed_media_spec srcRm [vidPresent] dbRm mAbsDl (by decide)).mpr
      ⟨by decide, by decide, by decide⟩,
    by decide⟩

/-! ## Index Source lemmas -/

theorem saveMedia_sources (db : Db) (m : Media) : (saveMedia db m).sources = db.sources := by
  unfold saveMedia
  split <;> rfl

theorem indexVideo_sources (s : Source) (db : Db) (v : Video) :
    (indexVideo s db v).sources = db.sources := by
  unfold indexVideo
  cases h : v.vget s.key_field with
  | none => rfl
  | some key =>
    by_cases hk : key = ""
    · simp [hk]
    · simp only [if_neg hk]
      cases h2 : db.media.find? fun m => m.key == key && m.source == s.pk with
      | none => exact saveMedia_sources ..
      | some m => exact saveMedia_sources ..

theorem foldl_indexVideo_sources (s : Source) (vs : List Video) (db : Db) :
    (vs.foldl (indexVideo s) db).sources = db.sources := by
  induction vs generalizing db with
  | nil => rfl
  | cons v vs ih => rw [List.foldl_cons, ih, indexVideo_sources]

theorem find?_map_replace (l : List Source) (s : Source) (sid : String) (hpk : s.pk = sid)
    (h : (l.find? (·.pk == sid)).isSome) :
    ((l.map fun t => if t.pk == s.pk then s else t).find? (·.pk == sid)) = some s := by
  induction l with
  | nil => simp at h
  | cons t l ih =>
    simp only [List.map_cons]
    by_cases ht : t.pk = sid
    · rw [if_pos (by simp [ht, hpk])]
      exact List.find?_cons_of_pos _ (by simp [hpk])
    · rw [if_neg (by simp [hpk, ht])]
      rw [List.find?_cons_of_neg _ (by simp [ht])]
      rw [List.find?_cons_of_neg _ (by simp [ht])] at h
      exact ih h

/-- C5: indexing an existing source whose enumeration came back empty (or
absent) raises `NoMediaException`, and neither creates nor updates any
media row nor runs the maintenance sweeps: the media table and the
completed-task log are exactly as before. -/
theorem index_source_task_no_media (db : Db) (sid : String) (videos : Option (List Video))
    (now : Time) (hs : (db.sources.find? (·.pk == sid)).isSome)
    (hv : videos = none ∨ videos = some []) :
    (index_source_task db sid videos now).2 = some PyErr.noMediaException ∧
    (index_source_task db sid videos now).1.media = db.media ∧
    (index_source_task db sid videos now).1.completedTasks = db.completedTasks := by
  obtain ⟨s0, hs0⟩ := Option.isSome_iff_exists.mp hs
  unfold index_source_task
  rw [hs0]
  rcases hv with rfl | rfl
  · exact ⟨rfl, rfl, rfl⟩
  · exact ⟨rfl, rfl, rfl⟩

/-- C5 witness: a one-source catalog indexed with an absent result. -/
theorem index_source_task_no_media_witness :
    (index_source_task db7 "s7" none 0).2 = some PyErr.noMediaException ∧
    (index_source_task db7 "s7" none 0).1.media = db7.media ∧
    (index_source_task db7 "s7" none 0).1.completedTasks = db7.completedTasks :=
  index_source_task_no_media db7 "s7" none 0 (by decide) (Or.inl rfl)

/-- C10: every `index_source_task` run on an existing source persists the
source with `has_failed = false` before enumeration, so even a run whose
enumeration returns nothing (and raises) leaves the stored source with
`has_failed = false`. -/
theorem index_source_task_clears_has_failed (db : Db) (sid : String)
    (videos : Option (List Video)) (now : Time)
    (hs : (db.sources.find? (·.pk == sid)).isSome) :
    ∃ s', ((index_source_task db sid videos now).1.sources.find? (·.pk == sid)) = some s' ∧
      s'.has_failed = false := by
  obtain ⟨s0, hs0⟩ := Option.isSome_iff_exists.mp hs
  have hpk : s0.pk = sid := by simpa using List.find?_some hs0
  unfold index_source_task
  rw [hs0]
  cases videos with
  | none =>
    exact ⟨{ s0 with has_failed := false }, find?_map_replace db.sources _ sid hpk hs, rfl⟩
  | some vs =>
    by_cases hvs : vs.isEmpty
    · simp only [hvs, if_true]
      exact ⟨{ s0 with has_failed := false }, find?_map_replace db.sources _ sid hpk hs, rfl⟩
    · simp only [hvs, Bool.false_eq_true, if_false]
      have h1 : ((saveSource db { s0 with has_failed := false }).sources.find?
          (·.pk == sid)) = some { s0 with has_failed := false } :=
        find?_map_replace db.sources _ sid hpk hs
      have h2 : (((saveSource (saveSource db { s0 with has_failed := false })
          { s0 with has_failed := false, last_crawl := some now }).sources.find?
            (·.pk == sid))) = some { s0 with has_failed := false, last_crawl := some now } :=
        find?_map_replace _ _ sid hpk (by rw [h1]; rfl)
      refine ⟨{ s0 with has_failed := false, last_crawl := some now }, ?_, rfl⟩
      have hsrcs : ∀ d : Db,
          (if { s0 with has_failed := false, last_crawl := some now }.delete_removed_media
            then cleanup_removed_media
              { s0 with has_failed := false, last_crawl := some now } vs d
            else d).sources = d.sources := by
        intro d
        split <;> rfl
      rw [hsrcs, cleanup_old_media, cleanup_completed_tasks]
      simp only []
      rw [foldl_indexVideo_sources]
      exact h2

/-- C10 witness: at the concrete one-source catalog, both for a failing
(empty) and a successful enumeration. -/
theorem index_source_task_clears_has_failed_witness :
    (∃ s', ((index_source_task db7 "s7" none 0).1.sources.find? (·.pk == "s7")) = some s' ∧
      s'.has_failed = false) ∧
    (∃ s', ((index_source_task db7 "s7" (some [vidPresent]) 0).1.sources.find?
        (·.pk == "s7")) = some s' ∧ s'.has_failed = false) :=
  ⟨index_source_task_clears_has_failed db7 "s7" none 0 (by decide),
   index_source_task_clears_has_failed db7 "s7" (some [vidPresent]) 0 (by decide)⟩

/-! ## Download preconditions (C2) and cap-date decision (C3) -/

/-- A source with downloads enabled and no cap or retention. -/
def srcDl : Source := { srcKeep7 with pk := "sd", delete_old_media := false }

/-- An audio-only format descriptor (code `140`, empty `vcodec`). -/
def fmtAudio : Format where
  format_id := "140"
  format := "140 - audio only"
  vcodec := ""
  acodec := "mp4a.40.2"
  height := none
  width := none
  fps := none
  is_hdr := false

/-- Marked downloaded but with no recorded media file. -/
def mRedl : Media :=
  { newMedia srcDl "redl" with downloaded := true, media_file := "", formats := [fmtAudio] }

/-- A downloader run that succeeded with the audio-only format. -/
def envRedl : DlEnv := ⟨"140", "m4a", true, 123, daysDelta 1000⟩

instance {ε α : Type} [DecidableEq ε] [DecidableEq α] : DecidableEq (Except ε α) :=
  fun a b =>
    match a, b with
    | .ok x, .ok y => if h : x = y then .isTrue (by rw [h]) else .isFalse (by simp [h])
    | .error x, .error y => if h : x = y then .isTrue (by rw [h]) else .isFalse (by simp [h])
    | .ok _, .error _ => .isFalse (by simp)
    | .error _, .ok _ => .isFalse (by simp)

/-- C2 counterexample: a media row with `downloaded = true` (but no
recorded media file) is *not* left unchanged — the stage proceeds and
rewrites the row, because the code's guard is
`media.downloaded and media.media_file`. -/
theorem download_media_counterexample_c2 :
    mRedl.downloaded = true ∧
    download_media mRedl srcDl envRedl ≠ Except.ok mRedl := by decide

/-- C2 (amended): the Download Media stage is a silent no-op — same row
back, no exception — when the media is marked skip, or is downloaded
*with a recorded media file*, or the source has downloads disabled, or
the publish date is on or before the source's cap date. -/
theorem download_media_noop (m : Media) (s : Source) (env : DlEnv)
    (h : m.skip = true ∨ (m.downloaded = true ∧ m.media_file ≠ "") ∨
         s.download_media = false ∨
         (∃ cap p, s.download_cap_date = some cap ∧ m.published = some p ∧ p ≤ cap)) :
    download_media m s env = .ok m := by
  unfold download_media
  split
  · rfl
  · split
    · rfl
    · split
      · rfl
      · split
        · rfl
        · rename_i h1 h2 h3 h4
          exfalso
          rcases h with hskip | ⟨hdl, hfile⟩ | hsm | ⟨cap, p, hcap, hpub, hle⟩
          · exact h1 hskip
          · exact h2 (by simp [hdl, truthyStr, hfile])
          · exact h3 (by simp [hsm])
          · exact h4 (by rw [hcap, hpub]; simpa using hle)

/-- Marked to be skipped. -/
def mSkip : Media := { newMedia srcDl "skip" with skip := true }

/-- Downloaded with a recorded media file. -/
def mDone : Media :=
  { newMedia srcDl "done" with downloaded := true, media_file := "video/done" }

/-- C2 witness: the skip-flagged row and the downloaded-with-file row both
come back unchanged. -/
theorem download_media_noop_witness :
    download_media mSkip srcDl envRedl = Except.ok mSkip ∧
    download_media mDone srcDl envRedl = Except.ok mDone :=
  ⟨download_media_noop mSkip srcDl envRedl (Or.inl rfl),
   download_media_noop mDone srcDl envRedl (Or.inr (Or.inl ⟨rfl, by decide⟩))⟩

/-- A source with a download cap at day 500 and no retention. -/
def srcCap : Source :=
  { srcKeep7 with
    pk := "sc"
    delete_old_media := false
    download_cap_date := some (daysDelta 500) }

/-- A fresh media row of the capped source. -/
def mMeta : Media := newMedia srcCap "m"

/-- A metadata fetch whose upload date equals the cap date exactly. -/
def envMeta : MetaEnv := ⟨"{}", some (daysDelta 500), true, daysDelta 1000⟩

/-- C3 counterexample: with `published` exactly equal to the cap date —
"not after" it, so the claim demands the skip decision be true — the
Fetch Metadata stage does *not* mark the media skipped: the code tests
`media.published < max_cap_age` strictly. -/
theorem download_media_metadata_cap_counterexample :
    srcCap.download_cap_date = some (daysDelta 500) ∧
    (download_media_metadata mMeta srcCap envMeta).published = some (daysDelta 500) ∧
    (download_media_metadata mMeta srcCap envMeta).skip = false := by decide

/-- C3 (amended): for a non-manually-skipped, not-yet-skipped media item
with a known upload date and retention disabled, the Fetch Metadata
stage's cap-date skip decision is true exactly when the source has a cap
date and the publish date is *strictly before* it; in that case
`can_download` is left untouched (it stays false when it was false) and
the Download Media stage is a no-op on the result. -/
theorem download_media_metadata_cap_spec (m : Media) (s : Source) (env : MetaEnv) (p : Time)
    (hms : m.manual_skip = false) (hsk : m.skip = false)
    (hup : env.upload_date = some p)
    (hret : s.delete_old_media = false) :
    ((download_media_metadata m s env).skip = true ↔
      (∃ cap, s.download_cap_date = some cap ∧ p < cap)) ∧
    ((download_media_metadata m s env).skip = true →
      (download_media_metadata m s env).can_download = m.can_download ∧
      ∀ denv, download_media (download_media_metadata m s env) s denv
        = .ok (download_media_metadata m s env)) := by
  have hcompute : download_media_metadata m s env =
      (if (match s.download_cap_date with
            | some cap => decide (p < cap)
            | none => false) then
        { m with metadata := env.metadata, published := some p, skip := true }
      else
        { m with metadata := env.metadata, published := some p,
                 can_download := env.format_available }) := by
    unfold download_media_metadata
    rw [if_neg (by simp [hms])]
    rw [hup]
    simp only [hret, false_and, if_false]
    cases hc : s.download_cap_date with
    | none => simp [hsk]
    | some cap =>
      by_cases hpc : p < cap
      · simp [hpc]
      · simp [hpc, hsk]
  constructor
  · rw [hcompute]
    cases hc : s.download_cap_date with
    | none => simp [hsk]
    | some cap =>
      by_cases hpc : p < cap
      · simp [hpc]
      · simp [hpc, hsk]
  · intro hskip
    have hcap : (match s.download_cap_date with
        | some cap => decide (p < cap)
        | none => false) = true := by
      by_contra hcc
      rw [hcompute, if_neg (by simpa using hcc)] at hskip
      simp [hsk] at hskip
    constructor
    · rw [hcompute, if_pos hcap]
    · intro denv
      unfold download_media
      rw [if_pos hskip]

/-- A metadata fetch whose upload date (day 400) lies strictly before the
cap date (day 500). -/
def envBefore : MetaEnv := ⟨"{}", some (daysDelta 400), true, daysDelta 1000⟩

/-- C3 witness: published strictly before the cap date does get skipped. -/
theorem download_media_metadata_cap_spec_witness :
    (download_media_metadata mMeta srcCap envBefore).skip = true :=
  ((download_media_metadata_cap_spec mMeta srcCap envBefore (daysDelta 400)
      rfl rfl rfl rfl).1).mpr ⟨daysDelta 500, rfl, by decide⟩

/-! ## Format-string parsing in Download Media (C1) -/

theorem pySplitChar_append_left (sep : Char) {l1 : List Char} (h : sep ∉ l1) (l2 : List Char) :
    pySplitChar sep (l1 ++ sep :: l2) = l1 :: pySplitChar sep l2 := by
  induction l1 with
  | nil => simp [pySplitChar]
  | cons c l1 ih =>
    simp only [List.mem_cons, not_or] at h
    have hcs : ¬ c = sep := fun hh => h.1 hh.symm
    simp [pySplitChar, hcs, ih h.2]

/-- C1: after a successful download (preconditions pass, output file
exists), the returned format string is parsed so that a `v+a` string
populates the video-side fields (`downloaded_format`, height, width,
video codec, fps, HDR) from the format with code `v` and the audio codec
from the format with code `a`; a single code with a truthy `vcodec`
populates both sides from that one format; a single code with an empty
`vcodec` sets the audio codec from it and `downloaded_format = "audio"`. -/
theorem download_media_format_parsing (m : Media) (s : Source) (env : DlEnv)
    (hskip : m.skip = false) (hdown : m.downloaded = false)
    (hsm : s.download_media = true) (hcap : s.download_cap_date = none)
    (hfile : env.fileExists = true) :
    (∀ (vcs acs : List Char) (vf af : Format),
      env.format_str.data = vcs ++ '+' :: acs → '+' ∉ vcs → '+' ∉ acs →
      get_format_by_code m ⟨vcs⟩ = some vf → get_format_by_code m ⟨acs⟩ = some af →
      ∃ m', download_media m s env = .ok m' ∧
        m'.downloaded_format = vf.format ∧ m'.downloaded_height = vf.height ∧
        m'.downloaded_width = vf.width ∧ m'.downloaded_video_codec = vf.vcodec ∧
        m'.downloaded_fps = vf.fps ∧ m'.downloaded_hdr = vf.is_hdr ∧
        m'.downloaded_audio_codec = af.acodec) ∧
    (∀ cf : Format, '+' ∉ env.format_str.data →
      get_format_by_code m env.format_str = some cf → cf.vcodec ≠ "" →
      ∃ m', download_media m s env = .ok m' ∧
        m'.downloaded_format = cf.format ∧ m'.downloaded_height = cf.height ∧
        m'.downloaded_width = cf.width ∧ m'.downloaded_video_codec = cf.vcodec ∧
        m'.downloaded_fps = cf.fps ∧ m'.downloaded_hdr = cf.is_hdr ∧
        m'.downloaded_audio_codec = cf.acodec) ∧
    (∀ cf : Format, '+' ∉ env.format_str.data →
      get_format_by_code m env.format_str = some cf → cf.vcodec = "" →
      ∃ m', download_media m s env = .ok m' ∧
        m'.downloaded_audio_codec = cf.acodec ∧ m'.downloaded_format = "audio") := by
  have h4 : (match s.download_cap_date, m.published with
      | some cap, some p => decide (p ≤ cap)
      | _, _ => false) = false := by
    rw [hcap]
  refine ⟨?_, ?_, ?_⟩
  · intro vcs acs vf af hfs hv1 ha1 hvf haf
    unfold download_media
    rw [if_neg (by simp [hskip]), if_neg (by simp [hdown]), if_neg (by simp [hsm]),
      if_neg (by simp [h4]), if_pos hfile]
    simp only [hfs]
    rw [if_pos (by simp)]
    rw [pySplitChar_append_left '+' hv1 acs, pySplitChar_of_not_mem '+' ha1]
    simp only [get_format_by_code] at hvf haf ⊢
    rw [hvf, haf]
    exact ⟨_, rfl, rfl, rfl, rfl, rfl, rfl, rfl, rfl⟩
  · intro cf hnp hcf hvc
    unfold download_media
    rw [if_neg (by simp [hskip]), if_neg (by simp [hdown]), if_neg (by simp [hsm]),
      if_neg (by simp [h4]), if_pos hfile]
    rw [if_neg (by simp [hnp])]
    simp only [get_format_by_code] at hcf ⊢
    rw [hcf]
    have hvt : truthyStr cf.vcodec = true := by simp [truthyStr, hvc]
    simp only [hvt, if_true]
    exact ⟨_, rfl, rfl, rfl, rfl, rfl, rfl, rfl, rfl⟩
  · intro cf hnp hcf hvc
    unfold download_media
    rw [if_neg (by simp [hskip]), if_neg (by simp [hdown]), if_neg (by simp [hsm]),
      if_neg (by simp [h4]), if_pos hfile]
    rw [if_neg (by simp [hnp])]
    simp only [get_format_by_code] at hcf ⊢
    rw [hcf]
    have hvt : truthyStr cf.vcodec = false := by simp [truthyStr, hvc]
    simp only [hvt, Bool.false_eq_true, if_false]
    exact ⟨_, rfl, rfl, rfl⟩

/-- A 1080p video-only format (code `137`). -/
def fmtVideo : Format where
  format_id := "137"
  format := "137 - 1920x1080"
  vcodec := "avc1.640028"
  acodec := ""
  height := some 1080
  width := some 1920
  fps := some 30
  is_hdr := false

/-- A combined audio+video format (code `22`). -/
def fmtComb : Format where
  format_id := "22"
  format := "22 - 1280x720"
  vcodec := "avc1.64001F"
  acodec := "mp4a.40.2"
  height := some 720
  width := some 1280
  fps := some 30
  is_hdr := false

/-- A media row carrying the three-format catalog. -/
def mFmt : Media :=
  { newMedia srcDl "fmt" with formats := [fmtVideo, fmtAudio, fmtComb] }

/-- A downloader result with a split `137+140` format string. -/
def envSplit : DlEnv := ⟨"137+140", "mp4", true, 99, daysDelta 1000⟩

/-- A downloader result with the combined `22` format string. -/
def envComb : DlEnv := ⟨"22", "mp4", true, 99, daysDelta 1000⟩

/-- A downloader result with the audio-only `140` format string. -/
def envAud : DlEnv := ⟨"140", "m4a", true, 99, daysDelta 1000⟩

/-- C1 witness: the spec's three scenarios — `137+140`, `22`, `140`. -/
theorem download_media_format_parsing_witness :
    (∃ m', download_media mFmt srcDl envSplit = .ok m' ∧
      m'.downloaded_format = fmtVideo.format ∧ m'.downloaded_height = fmtVideo.height ∧
      m'.downloaded_width = fmtVideo.width ∧ m'.downloaded_video_codec = fmtVideo.vcodec ∧
      m'.downloaded_fps = fmtVideo.fps ∧ m'.downloaded_hdr = fmtVideo.is_hdr ∧
      m'.downloaded_audio_codec = fmtAudio.acodec) ∧
    (∃ m', download_media mFmt srcDl envComb = .ok m' ∧
      m'.downloaded_format = fmtComb.format ∧ m'.downloaded_height = fmtComb.height ∧
      m'.downloaded_width = fmtComb.width ∧ m'.downloaded_video_codec = fmtComb.vcodec ∧
      m'.downloaded_fps = fmtComb.fps ∧ m'.downloaded_hdr = fmtComb.is_hdr ∧
      m'.downloaded_audio_codec = fmtComb.acodec) ∧
    (∃ m', download_media mFmt srcDl envAud = .ok m' ∧
      m'.downloaded_audio_codec = fmtAudio.acodec ∧ m'.downloaded_format = "audio") :=
  ⟨(download_media_format_parsing mFmt srcDl envSplit rfl rfl rfl rfl rfl).1
      "137".data "140".data fmtVideo fmtAudio rfl (by decide) (by decide)
      (by decide) (by decide),
   (download_media_format_parsing mFmt srcDl envComb rfl rfl rfl rfl rfl).2.1
      fmtComb (by decide) (by decide) (by decide),
   (download_media_format_parsing mFmt srcDl envAud rfl rfl rfl rfl rfl).2.2
      fmtAudio (by decide) (by decide) (by decide)⟩

/-! ## `map_task_to_instance` resolution (C4) -/

/-- The catalog lookup the success path of `map_task_to_instance`
performs: the entity of the mapped model with the given primary key. -/
def findInstance (db : Db) (k : ModelKind) (u : String) : Option Instance :=
  match k with
  | .sourceModel => (db.sources.find? (·.pk == u)).map Instance.source
  | .mediaModel => (db.media.find? (·.pk == u)).map Instance.media

/-- An empty catalog. -/
def dbC4 : Db := ⟨[], [], []⟩

/-- A recognized task kind whose stored parameters are the valid JSON
document `5` — not of the expected `[[args], {kwargs}]` shape. -/
def taskBad : PyTask := ⟨"sync.tasks.download_media", some (.num 5)⟩

/-- C4 counterexample: on a recognized kind whose parameter string is
valid JSON but a bare number, `len(task_args)` raises `TypeError`
(uncaught), so `map_task_to_instance` does not degrade to `None`. -/
theorem map_task_to_instance_counterexample :
    map_task_to_instance dbC4 taskBad = .error PyErr.typeError := rfl

/-- C4 (amended): `map_task_to_instance` returns the `None` result — and
does not raise — when the task kind is unrecognized, when the parameter
string is not valid JSON, when it parses to an array of length ≠ 2, when
the two-element array's argument list is empty, or when its first
argument is not a well-formed UUID; for a recognized kind with a
well-formed first-argument UUID it returns exactly the catalog entity
with that key and its display URL (the `None` result when no such entity
exists).  (A parse to a sizeless value such as a bare number instead
raises `TypeError`.) -/
theorem map_task_to_instance_total (db : Db) (t : PyTask) :
    (taskMap t.task_name = none → map_task_to_instance db t = .ok none) ∧
    (t.task_params = none → map_task_to_instance db t = .ok none) ∧
    (∀ xs, t.task_params = some (.arr xs) → xs.length ≠ 2 →
      map_task_to_instance db t = .ok none) ∧
    (∀ kw, t.task_params = some (.arr [.arr [], kw]) →
      map_task_to_instance db t = .ok none) ∧
    (∀ a0 rest kw, t.task_params = some (.arr [.arr (a0 :: rest), kw]) →
      uuidArg a0 = none → map_task_to_instance db t = .ok none) ∧
    (∀ a0 rest kw u model, t.task_params = some (.arr [.arr (a0 :: rest), kw]) →
      uuidArg a0 = some u → taskMap t.task_name = some model →
      map_task_to_instance db t =
        .ok ((findInstance db model u).map fun i => (i, modelUrl model))) := by
  refine ⟨?_, ?_, ?_, ?_, ?_, ?_⟩
  · intro h
    unfold map_task_to_instance
    rw [h]
  · intro h
    unfold map_task_to_instance
    cases hm : taskMap t.task_name with
    | none => rfl
    | some model => rw [h]
  · intro xs hp hlen
    unfold map_task_to_instance
    cases hm : taskMap t.task_name with
    | none => rfl
    | some model =>
      rw [hp]
      simp only [pyLen]
      rw [if_pos hlen]
  · intro kw hp
    unfold map_task_to_instance
    cases hm : taskMap t.task_name with
    | none => rfl
    | some model =>
      rw [hp]
      rfl
  · intro a0 rest kw hp hu
    unfold map_task_to_instance
    cases hm : taskMap t.task_name with
    | none => rfl
    | some model =>
      rw [hp]
      change (match uuidArg a0 with
              | none => Except.ok (α := Option (Instance × String)) none
              | some u =>
                match model with
                | .sourceModel =>
                  match db.sources.find? (fun x : Source => x.pk == u) with
                  | some s => .ok (some (.source s, modelUrl model))
                  | none => .ok none
                | .mediaModel =>
                  match db.media.find? (fun x : Media => x.pk == u) with
                  | some mm => .ok (some (.media mm, modelUrl model))
                  | none => .ok none) = Except.ok none
      rw [hu]
  · intro a0 rest kw u model hp hu hm
    unfold map_task_to_instance
    rw [hm, hp]
    change (match uuidArg a0 with
            | none => Except.ok (α := Option (Instance × String)) none
            | some v =>
              match model with
              | .sourceModel =>
                match db.sources.find? (fun x : Source => x.pk == v) with
                | some s => .ok (some (.source s, modelUrl model))
                | none => .ok none
              | .mediaModel =>
                match db.media.find? (fun x : Media => x.pk == v) with
                | some mm => .ok (some (.media mm, modelUrl model))
                | none => .ok none) =
      Except.ok ((findInstance db model u).map fun i => (i, modelUrl model))
    rw [hu]
    cases model with
    | sourceModel =>
      cases hf : db.sources.find? (fun x : Source => x.pk == u) with
      | none => simp [findInstance, hf, modelUrl]
      | some s => simp [findInstance, hf, modelUrl]
    | mediaModel =>
      cases hf : db.media.find? (fun x : Media => x.pk == u) with
      | none => simp [findInstance, hf, modelUrl]
      | some mm => simp [findInstance, hf, modelUrl]

/-- A source stored under a canonical UUID primary key. -/
def srcU : Source := { srcKeep7 with pk := "0123456789abcdef0123456789abcdef" }

/-- Catalog holding only `srcU`. -/
def dbU : Db := ⟨[srcU], [], []⟩

/-- A well-formed stored task row naming `srcU` in its first argument. -/
def taskGood : PyTask :=
  ⟨"sync.tasks.index_source_task",
    some (.arr [.arr [.str "01234567-89ab-cdef-0123-456789abcdef"], .obj []])⟩

/-- C4 witness: the well-formed task resolves to the stored source and
its display URL; an unknown kind resolves to the `None` result. -/
theorem map_task_to_instance_total_witness :
    map_task_to_instance dbU taskGood = .ok (some (.source srcU, "sync:source")) ∧
    map_task_to_instance dbU ⟨"sync.tasks.bogus", some (.arr [])⟩ = .ok none :=
  ⟨by
    have h := (map_task_to_instance_total dbU taskGood).2.2.2.2.2
      (.str "01234567-89ab-cdef-0123-456789abcdef") [] (.obj [])
      "0123456789abcdef0123456789abcdef" .sourceModel rfl (by decide) rfl
    rw [h]
    decide,
   (map_task_to_instance_total dbU ⟨"sync.tasks.bogus", some (.arr [])⟩).1 rfl⟩

end TubeSync
